import Mathlib

/-
  Verification development for the schematic-library extractor
  (src/library.py of Atmelfan/python-altium).

  The decoding engine of src/library.py is embedded shallowly:
  byte strings become `List Nat` (each element a byte value 0..255),
  Python exceptions become an explicit error type threaded through
  `Except`, and the unbounded `while True` discovery loop becomes a
  fuel-indexed recursion.  The helper module `altium` (record
  iteration, property decoding, the `Properties` accessors `get`,
  `get_int` and `check`) is not present under src/, so those
  accessors are modelled from the specification, as marked on each
  definition.
-/

set_option autoImplicit false

/-- Byte strings (Python `bytes`): lists of byte values. -/
abbrev ByteStr := List Nat

/-- Python exception classes that can arise in the embedded code.
`unicodeDecodeError` and `intParseError` derive from `ValueError` in
Python's exception hierarchy; `attrError` (AttributeError, raised by
`None.decode(...)`), `notFound` (the container's missing-stream
error) and `stopIteration` do not.  `fuelOut` is an artifact of the
embedding: it marks exhaustion of the fuel that bounds the source's
unbounded `while True` loop.  `formatError` (a failing `check`) is
only ever raised outside any handler, so its classification is
inert. -/
inductive PyErr where
  | attrError
  | unicodeDecodeError
  | intParseError
  | formatError
  | notFound
  | stopIteration
  | fuelOut
  deriving DecidableEq

/-- Which modelled exceptions the `except ValueError` clause at
src/library.py line 137 catches. -/
def PyErr.isValueError : PyErr → Bool
  | .unicodeDecodeError => true
  | .intParseError => true
  | _ => false

/-- ASCII byte values of a Lean string (used to write the expected
header constants the way the source writes them as `b"..."`). -/
def asciiBytes (s : String) : ByteStr :=
  s.data.map Char.toNat

/-- The string obtained from a list of byte values, one character per
byte. -/
def stringOfBytes (bs : ByteStr) : String :=
  String.mk (bs.map Char.ofNat)

/-- Python `bytes.decode('ascii')`: succeeds exactly when every byte
is below 0x80, raising `UnicodeDecodeError` otherwise. -/
def decodeAscii (bs : ByteStr) : Except PyErr String :=
  if bs.all (fun b => b < 128) then .ok (stringOfBytes bs)
  else .error .unicodeDecodeError

/-- Python `value.decode('ascii')` where `value` came from a `get`
that may have returned `None`: calling `.decode` on `None` raises
`AttributeError`. -/
def decodeReqAscii : Option ByteStr → Except PyErr String
  | none => .error .attrError
  | some bs => decodeAscii bs

/-- Classify a byte as a UTF-8 lead byte: `some (needed, acc, lo, hi)`
gives the number of continuation bytes still required, the accumulated
code-point bits, and the admissible range of the next continuation
byte (the first continuation range depends on the lead byte; all later
ones are 0x80..0xBF). `none` means the byte cannot start a multi-byte
sequence. -/
def utf8Lead (b : Nat) : Option (Nat × Nat × Nat × Nat) :=
  if 194 ≤ b ∧ b ≤ 223 then some (1, b - 192, 128, 191)
  else if b = 224 then some (2, 0, 160, 191)
  else if 225 ≤ b ∧ b ≤ 236 then some (2, b - 224, 128, 191)
  else if b = 237 then some (2, 13, 128, 159)
  else if 238 ≤ b ∧ b ≤ 239 then some (2, b - 224, 128, 191)
  else if b = 240 then some (3, 0, 144, 191)
  else if 241 ≤ b ∧ b ≤ 243 then some (3, b - 240, 128, 191)
  else if b = 244 then some (3, 4, 128, 143)
  else none

/-- UTF-8 decoding with Python's `errors='replace'` policy: each
maximal invalid subsequence (a stray byte, or a truncated valid
prefix of a multi-byte sequence) becomes one U+FFFD replacement
character; the decode is total.  The first argument is the decoder
state: `none` between sequences, `some` mid-sequence. -/
def utf8Aux : Option (Nat × Nat × Nat × Nat) → List Nat → List Char
  | none, [] => []
  | some _, [] => ['�']
  | none, b :: rest =>
      if b < 128 then Char.ofNat b :: utf8Aux none rest
      else
        match utf8Lead b with
        | some st => utf8Aux (some st) rest
        | none => '�' :: utf8Aux none rest
  | some (needed, acc, lo, hi), b :: rest =>
      if lo ≤ b ∧ b ≤ hi then
        if needed ≤ 1 then Char.ofNat (acc * 64 + (b - 128)) :: utf8Aux none rest
        else utf8Aux (some (needed - 1, acc * 64 + (b - 128), 128, 191)) rest
      else
        '�' ::
          (if b < 128 then Char.ofNat b :: utf8Aux none rest
           else
             match utf8Lead b with
             | some st => utf8Aux (some st) rest
             | none => '�' :: utf8Aux none rest)

/-- Python `bytes.decode('utf8', errors='replace')`. -/
def utf8DecodeReplace (bs : ByteStr) : List Char :=
  utf8Aux none bs

/-- Python `str.replace('\n', ' ')`: since the pattern is the single
character `'\n'`, this is the character-wise substitution of a space
for every newline. -/
def replaceNL (cs : List Char) : List Char :=
  cs.map (fun c => if c = '\n' then ' ' else c)

/-- The description computation of src/library.py lines 127-129:
decode as UTF-8 with replacement, then turn newlines into spaces.
Total by construction (the type is `String`, not `Except`). -/
def descOf (bs : ByteStr) : String :=
  String.mk (replaceNL (utf8DecodeReplace bs))

/-- Whether a byte is an ASCII decimal digit. -/
def isDigit (b : Nat) : Bool := 48 ≤ b && b ≤ 57

/-- Value of a list of ASCII digit bytes read in base 10. -/
def digitsToNat (bs : List Nat) : Nat :=
  bs.foldl (fun acc b => acc * 10 + (b - 48)) 0

/-- Python `int(bytes)`: an optional sign followed by at least one
decimal digit; anything else raises `ValueError`.  (The source only
ever parses the small record-kind integers.) -/
def parseInt? (bs : ByteStr) : Option Int :=
  match bs with
  | 45 :: rest =>
      if !rest.isEmpty && rest.all isDigit then some (-(digitsToNat rest : Int))
      else none
  | _ =>
      if !bs.isEmpty && bs.all isDigit then some ((digitsToNat bs : Int))
      else none

/-- A decoded record: its property map, keys stored in normalized
uppercase form.  Modelled from the spec: the `altium` Property
Decoder (not under src/) produces a map from case-insensitive
identifier to raw byte-string value, keys unique per record. -/
structure Record where
  props : List (String × ByteStr)
  deriving DecidableEq

/-- First-match association-list lookup. -/
def alookup {β : Type} (k : String) : List (String × β) → Option β
  | [] => none
  | (k2, v) :: rest => if k2 = k then some v else alookup k rest

/-- Character-wise uppercase normalization of an identifier. -/
def upperKey (s : String) : String :=
  String.mk (s.data.map Char.toUpper)

/-- Modelled from the spec: the Property Map accessor "get raw bytes
(optional, with fallback default)" of the `altium` module (not under
src/); the lookup key is normalized to uppercase. -/
def Record.get (r : Record) (key : String) : Option ByteStr :=
  alookup (upperKey key) r.props

/-- Python `properties.get(key, default)`. -/
def Record.getD (r : Record) (key : String) (d : ByteStr) : ByteStr :=
  (r.get key).getD d

/-- Modelled from the spec: the Property Map accessor "get as integer
(parses the stored bytes as a decimal integer; fails with a decode
error if non-numeric)" of the `altium` module (not under src/).  The
spec leaves the absent-key case open; the raw-bytes accessor's
fallback default parsed as an integer gives 0. -/
def Record.get_int (r : Record) (key : String) : Except PyErr Int :=
  match r.get key with
  | none => .ok 0
  | some bs =>
      match parseInt? bs with
      | some n => .ok n
      | none => .error .intParseError

/-- Modelled from the spec: the validation helper
`check(key, expected, alternate=None)` of the `altium` module (not
under src/): "fails with a format error unless the key is present and
its value equals `expected` or (if provided) `alternate`". -/
def Record.check (r : Record) (key : String) (expected alternate : Option ByteStr) :
    Except PyErr Unit :=
  match r.get key with
  | none => .error .formatError
  | some v =>
      if expected = some v ∨ alternate = some v then .ok ()
      else .error .formatError

/-- Python dict assignment `m[k] = v`: overwrite in place if the key
exists, append otherwise. -/
def upsert {β : Type} : List (String × β) → String → β → List (String × β)
  | [], k, v => [(k, v)]
  | (k2, v2) :: rest, k, v =>
      if k2 = k then (k, v) :: rest else (k2, v2) :: upsert rest k v

/-- One schematic part (class `SchPart` of src/library.py). -/
structure SchPart where
  id : String
  desc : String
  designator : String
  properties : List (String × String)
  footprints : List (String × String)
  deriving DecidableEq

/-- The part state right after decoding the header (src/library.py
lines 57-68). -/
def SchPart.initial (idv d : String) : SchPart :=
  { id := idv, desc := d, designator := "", properties := [], footprints := [] }

/-- Identity extraction of src/library.py lines 59-63: try
`DESIGNITEMID`, else decode `LIBREFERENCE` — decoding the result of a
failed `get` raises `AttributeError`. -/
def headerId (header : Record) : Except PyErr String :=
  match header.get "DESIGNITEMID" with
  | some bs => decodeAscii bs
  | none => decodeReqAscii (header.get "LIBREFERENCE")

/-- Processing of one element of the record stream (src/library.py
lines 69-87).  `none` models `parse_properties` returning `None` for
a record that fails property decoding: it is skipped. -/
def processRecord (p : SchPart) : Option Record → Except PyErr SchPart
  | none => .ok p
  | some r =>
      match r.get_int "RECORD" with
      | .error e => .error e
      | .ok k =>
          if k = 41 then
            match decodeReqAscii (r.get "NAME") with
            | .error e => .error e
            | .ok name =>
                match decodeAscii (r.getD "TEXT" []) with
                | .error e => .error e
                | .ok text => .ok { p with properties := upsert p.properties name text }
          else if k = 34 then
            match decodeReqAscii (r.get "TEXT") with
            | .error e => .error e
            | .ok text => .ok { p with designator := text }
          else if k = 45 then
            match decodeReqAscii (r.get "MODELNAME") with
            | .error e => .error e
            | .ok name =>
                match decodeAscii (r.getD "DESCRIPTION" []) with
                | .error e => .error e
                | .ok text => .ok { p with footprints := upsert p.footprints name text }
          else .ok p

/-- Left fold of `processRecord` over the tail of the record stream. -/
def buildRecords (p : SchPart) : List (Option Record) → Except PyErr SchPart
  | [] => .ok p
  | r :: rest =>
      match processRecord p r with
      | .error e => .error e
      | .ok q => buildRecords q rest

/-- `SchPart.__init__` (src/library.py lines 51-87): the stream is the
sequence of `parse_properties` results.  An empty stream makes
`next(records)` raise `StopIteration`; a header that failed property
decoding is `None`, on which `.get` raises `AttributeError`. -/
def SchPart.build (records : List (Option Record)) (description : String) :
    Except PyErr SchPart :=
  match records with
  | [] => .error .stopIteration
  | none :: _ => .error .attrError
  | some header :: rest =>
      match headerId header with
      | .error e => .error e
      | .ok idv => buildRecords (SchPart.initial idv description) rest

/-- `SchPart.params` (src/library.py lines 89-96): a dict of the three
fixed columns, then `params.update(self.properties)`. -/
def SchPart.params (p : SchPart) : List (String × String) :=
  p.properties.foldl (fun acc q => upsert acc q.1 q.2)
    [("id", p.id), ("designator", p.designator), ("description", p.desc)]

/-- The compound-document container, at the interface the core needs
(spec section 6): the `FileHeader` stream's decoded record sequence,
and the part data streams addressed by path `[libref, "Data"]`,
keyed here by the libref string. -/
structure OleFile where
  fileHeaderRecords : List (Option Record)
  dataStreams : List (String × List (Option Record))

/-- `file.openstream([libref, "Data"])`: `none` models the container's
not-found error for an absent path. -/
def openStream (file : OleFile) (name : String) : Option (List (Option Record)) :=
  alookup name file.dataStreams

/-- Header key `"LIBREF{}".format(n)`. -/
def libRefKey (n : Nat) : String := "LIBREF" ++ toString n

/-- Header key `"COMPDESCR{}".format(n)`. -/
def compDescrKey (n : Nat) : String := "COMPDESCR" ++ toString n

/-- The description for index `n` (src/library.py lines 127-129):
`header.get("COMPDESCR{n}", b'')` decoded permissively. -/
def descAt (header : Record) (n : Nat) : String :=
  descOf (header.getD (compDescrKey n) [])

/-- The expected format signature (src/library.py line 119). -/
def headerSig : ByteStr :=
  asciiBytes "Protel for Windows - Schematic Library Editor Binary File Version 5.0"

/-- The accepted minor version `b"2"` (src/library.py line 120). -/
def minorVer : ByteStr := asciiBytes "2"

/-- One schematic library (class `SchLib` of src/library.py): the part
table, keyed by libref string in discovery order. -/
structure SchLib where
  parts : List (String × SchPart)
  deriving DecidableEq

/-- The discovery loop of `SchLib.__init__` (src/library.py lines
123-139), with fuel standing in for the unbounded `while True`.  Per
iteration: read `LIBREF{cnt}` (break when absent or empty), decode it
as ASCII and open the stream at `[libref, "Data"]` — both outside the
`try`, so their errors propagate — then build the part; only a
`ValueError` from construction is caught (`pass`), anything else
propagates; `cnt` always advances. -/
def SchLib.loop (file : OleFile) (header : Record) :
    Nat → Nat → List (String × SchPart) → Except PyErr (List (String × SchPart))
  | 0, _, _ => .error .fuelOut
  | Nat.succ fuel, cnt, parts =>
      match header.get (libRefKey cnt) with
      | none => .ok parts
      | some [] => .ok parts
      | some lb =>
          match decodeAscii lb with
          | .error e => .error e
          | .ok name =>
              match openStream file name with
              | none => .error .notFound
              | some stream =>
                  match SchPart.build stream (descAt header cnt) with
                  | .ok part => SchLib.loop file header fuel (cnt + 1) (upsert parts name part)
                  | .error e =>
                      if e.isValueError then SchLib.loop file header fuel (cnt + 1) parts
                      else .error e

/-- `SchLib.__init__` (src/library.py lines 111-139): take the first
`FileHeader` record (empty stream: `StopIteration`; undecodable
header: `.check` on `None` raises `AttributeError`), validate the two
header invariants, then run the discovery loop. -/
def SchLib.build (file : OleFile) (fuel : Nat) : Except PyErr SchLib :=
  match file.fileHeaderRecords with
  | [] => .error .stopIteration
  | none :: _ => .error .attrError
  | some header :: _ =>
      match header.check "HEADER" (some headerSig) none with
      | .error e => .error e
      | .ok _ =>
          match header.check "MINORVERSION" none (some minorVer) with
          | .error e => .error e
          | .ok _ =>
              match SchLib.loop file header fuel 0 [] with
              | .error e => .error e
              | .ok parts => .ok ⟨parts⟩

/-- A byte string containing at least one byte outside the ASCII
range. -/
def hasHighByte (bs : ByteStr) : Prop := ∃ b ∈ bs, 128 ≤ b

/-- A part-stream header record whose ASCII-decoded identity field
carries a byte 0x80 or above: either `DESIGNITEMID` holds one, or
`DESIGNITEMID` is absent and the `LIBREFERENCE` fallback holds one
(src/library.py lines 59-63). -/
def unicodeFailingHeader (hdr : Record) : Prop :=
  (∃ bs, hdr.get "DESIGNITEMID" = some bs ∧ hasHighByte bs)
  ∨ (hdr.get "DESIGNITEMID" = none ∧
      ∃ bs, hdr.get "LIBREFERENCE" = some bs ∧ hasHighByte bs)

/-- A record one of whose ASCII-decoded fields carries a byte 0x80 or
above, by dispatch kind (src/library.py lines 73-85): a kind-41 `NAME`
or `TEXT`, a kind-34 `TEXT`, or a kind-45 `MODELNAME` or
`DESCRIPTION`.  In the `TEXT`/`DESCRIPTION` cases the name field is
required to decode, since the source decodes it first. -/
def unicodeFailingRecord (r : Record) : Prop :=
  (r.get_int "RECORD" = .ok 41 ∧ ∃ nb, r.get "NAME" = some nb ∧ hasHighByte nb)
  ∨ (r.get_int "RECORD" = .ok 41
      ∧ (∃ nb n, r.get "NAME" = some nb ∧ decodeAscii nb = .ok n)
      ∧ ∃ tb, r.get "TEXT" = some tb ∧ hasHighByte tb)
  ∨ (r.get_int "RECORD" = .ok 34 ∧ ∃ tb, r.get "TEXT" = some tb ∧ hasHighByte tb)
  ∨ (r.get_int "RECORD" = .ok 45 ∧ ∃ nb, r.get "MODELNAME" = some nb ∧ hasHighByte nb)
  ∨ (r.get_int "RECORD" = .ok 45
      ∧ (∃ nb n, r.get "MODELNAME" = some nb ∧ decodeAscii nb = .ok n)
      ∧ ∃ tb, r.get "DESCRIPTION" = some tb ∧ hasHighByte tb)

/-- The loop stops at index `n`: `LIBREF{n}` is absent or empty
(Python `if not libref: break`). -/
def stopsAt (header : Record) (n : Nat) : Prop :=
  header.get (libRefKey n) = none ∨ header.get (libRefKey n) = some []

/-- Index `n` passes the steps outside the `try` (libref present and
non-empty, ASCII-decodable, stream found) and its part construction
either succeeds or fails with an error the `except ValueError` clause
catches. -/
def indexOk (file : OleFile) (header : Record) (n : Nat) : Prop :=
  ∃ lb name stream, header.get (libRefKey n) = some lb ∧ lb ≠ [] ∧
    decodeAscii lb = Except.ok name ∧ openStream file name = some stream ∧
    ((∃ part, SchPart.build stream (descAt header n) = Except.ok part) ∨
     (∃ e, SchPart.build stream (descAt header n) = Except.error e ∧ e.isValueError = true))

/-- Index `n` yields a part: the libref is present, non-empty and
ASCII-decodable, the data stream exists, and part construction
succeeds. -/
def indexSucceeds (file : OleFile) (header : Record) (n : Nat) : Prop :=
  ∃ lb name stream part, header.get (libRefKey n) = some lb ∧ lb ≠ [] ∧
    decodeAscii lb = Except.ok name ∧ openStream file name = some stream ∧
    SchPart.build stream (descAt header n) = Except.ok part

/-- The part-table entry the loop would produce at index `n`, if any:
`none` when the libref is absent/empty or when part construction
fails. -/
def entryAt (file : OleFile) (header : Record) (n : Nat) : Option (String × SchPart) :=
  match header.get (libRefKey n) with
  | none => none
  | some [] => none
  | some lb =>
      match decodeAscii lb with
      | .error _ => none
      | .ok name =>
          match openStream file name with
          | none => none
          | some stream =>
              match SchPart.build stream (descAt header n) with
              | .ok part => some (name, part)
              | .error _ => none

/-- The entries contributed by the `count` indices starting at `cnt`. -/
def producedEntries (file : OleFile) (header : Record) : Nat → Nat → List (String × SchPart)
  | _, 0 => []
  | cnt, Nat.succ count =>
      (entryAt file header cnt).toList ++ producedEntries file header (cnt + 1) count

/-- How many of the `count` indices starting at `cnt` produce an
entry. -/
def someCount (file : OleFile) (header : Record) : Nat → Nat → Nat
  | _, 0 => 0
  | cnt, Nat.succ count =>
      (if (entryAt file header cnt).isSome then 1 else 0) + someCount file header (cnt + 1) count

/-
  Concrete instances used by the closed witness and counterexample
  theorems.
-/

/-- A part-stream header record carrying neither `DESIGNITEMID` nor
`LIBREFERENCE`. -/
def exHdrNoId : Record := ⟨[("PARTCOUNT", asciiBytes "1")]⟩

/-- A part-stream header record whose `DESIGNITEMID` holds the
non-ASCII byte 0xC9. -/
def exHdrHighId : Record := ⟨[("DESIGNITEMID", [201])]⟩

/-- A part-stream header record identifying the part as "A". -/
def exHdrA : Record := ⟨[("LIBREFERENCE", asciiBytes "A")]⟩

/-- A part-stream header record identifying the part as "B". -/
def exHdrB : Record := ⟨[("LIBREFERENCE", asciiBytes "B")]⟩

/-- A part-stream header record identifying the part as "C". -/
def exHdrC : Record := ⟨[("LIBREFERENCE", asciiBytes "C")]⟩

/-- A kind-41 property record: `Comment = 10k`. -/
def exRec41 : Record :=
  ⟨[("RECORD", asciiBytes "41"), ("NAME", asciiBytes "Comment"), ("TEXT", asciiBytes "10k")]⟩

/-- A kind-41 property record overwriting `Comment` with `20k`. -/
def exRec41b : Record :=
  ⟨[("RECORD", asciiBytes "41"), ("NAME", asciiBytes "Comment"), ("TEXT", asciiBytes "20k")]⟩

/-- A kind-41 property record with no `TEXT` value. -/
def exRec41NoText : Record :=
  ⟨[("RECORD", asciiBytes "41"), ("NAME", asciiBytes "Comment")]⟩

/-- A kind-41 property record whose `NAME` holds a non-ASCII byte. -/
def exRecHighName : Record :=
  ⟨[("RECORD", asciiBytes "41"), ("NAME", [200]), ("TEXT", asciiBytes "x")]⟩

/-- A kind-34 designator record: `TEXT = U?`. -/
def exRec34 : Record :=
  ⟨[("RECORD", asciiBytes "34"), ("TEXT", asciiBytes "U?")]⟩

/-- A kind-34 designator record with no `TEXT` value. -/
def exRec34NoText : Record := ⟨[("RECORD", asciiBytes "34")]⟩

/-- A kind-45 footprint record: `M1 = pkg`. -/
def exRec45 : Record :=
  ⟨[("RECORD", asciiBytes "45"), ("MODELNAME", asciiBytes "M1"), ("DESCRIPTION", asciiBytes "pkg")]⟩

/-- A kind-45 footprint record overwriting `M1` with `pkg2`. -/
def exRec45b : Record :=
  ⟨[("RECORD", asciiBytes "45"), ("MODELNAME", asciiBytes "M1"), ("DESCRIPTION", asciiBytes "pkg2")]⟩

/-- A kind-45 footprint record with no `DESCRIPTION` value. -/
def exRec45NoText : Record :=
  ⟨[("RECORD", asciiBytes "45"), ("MODELNAME", asciiBytes "M1")]⟩

/-- A record of an unhandled kind. -/
def exRec99 : Record := ⟨[("RECORD", asciiBytes "99"), ("NAME", asciiBytes "ignored")]⟩

/-- A base part used to exercise `processRecord`. -/
def exP0 : SchPart := SchPart.initial "X" ""

/-- Data stream of part "A": header only. -/
def exStreamA : List (Option Record) := [some exHdrA]

/-- Data stream of part "B": header plus one `Comment` property. -/
def exStreamB : List (Option Record) := [some exHdrB, some exRec41]

/-- Data stream of part "C": header only. -/
def exStreamC : List (Option Record) := [some exHdrC]

/-- Data stream whose header lacks both identity fields. -/
def exStreamBadA : List (Option Record) := [some exHdrNoId]

/-- Data stream whose interior kind-41 record has a non-ASCII
`NAME`. -/
def exStreamHighB : List (Option Record) := [some exHdrB, some exRecHighName]

/-- The part decoded from `exStreamB`. -/
def exPartB : SchPart :=
  { id := "B", desc := "", designator := "", properties := [("Comment", "10k")], footprints := [] }

/-- A library FileHeader record discovering parts "A" then "B". -/
def exLibHeader : Record :=
  ⟨[("HEADER", headerSig), ("MINORVERSION", asciiBytes "2"),
    ("LIBREF0", asciiBytes "A"), ("LIBREF1", asciiBytes "B")]⟩

/-- A library FileHeader record discovering parts "B" then "A". -/
def exLibHeaderW : Record :=
  ⟨[("HEADER", headerSig), ("MINORVERSION", asciiBytes "2"),
    ("LIBREF0", asciiBytes "B"), ("LIBREF1", asciiBytes "A")]⟩

/-- A library FileHeader record discovering parts "A", "B", "C". -/
def exLibHeader3 : Record :=
  ⟨[("HEADER", headerSig), ("MINORVERSION", asciiBytes "2"),
    ("LIBREF0", asciiBytes "A"), ("LIBREF1", asciiBytes "B"), ("LIBREF2", asciiBytes "C")]⟩

/-- A library whose first part's header lacks both identity fields. -/
def exFileC1 : OleFile :=
  ⟨[some exLibHeader], [("A", exStreamBadA), ("B", exStreamB)]⟩

/-- The same library with the identity field present. -/
def exFileC1Fixed : OleFile :=
  ⟨[some exLibHeader], [("A", exStreamA), ("B", exStreamB)]⟩

/-- A library whose second part's header lacks both identity fields. -/
def exFileC1W : OleFile :=
  ⟨[some exLibHeaderW], [("B", exStreamB), ("A", exStreamBadA)]⟩

/-- A library referencing part "A" whose data stream is absent from
the container. -/
def exFileC2 : OleFile :=
  ⟨[some exLibHeader], [("B", exStreamB)]⟩

/-- A three-part library whose middle part has a non-ASCII property
name. -/
def exFileC9 : OleFile :=
  ⟨[some exLibHeader3], [("A", exStreamA), ("B", exStreamHighB), ("C", exStreamC)]⟩

/-- A FileHeader record carrying the wrong format signature. -/
def exBadSigHeader : Record :=
  ⟨[("HEADER", asciiBytes "Nope"), ("MINORVERSION", asciiBytes "2")]⟩

/-- A library whose FileHeader signature is wrong. -/
def exFileBadSig : OleFile :=
  ⟨[some exBadSigHeader], []⟩

/-- A stream carrying two `Comment` properties, the later one `20k`. -/
def exStreamC6 : List (Option Record) :=
  [some exHdrA, some exRec41, some exRec99, some exRec41b]

/-- A stream carrying two `M1` footprints, the later one `pkg2`. -/
def exStreamC6F : List (Option Record) :=
  [some exHdrA, some exRec45, some exRec99, some exRec45b]

/-- The part decoded from `exStreamC6`. -/
def exPartC6 : SchPart :=
  { id := "A", desc := "", designator := "", properties := [("Comment", "20k")], footprints := [] }

/-- The part decoded from `exStreamC6F`. -/
def exPartC6F : SchPart :=
  { id := "A", desc := "", designator := "", properties := [], footprints := [("M1", "pkg2")] }

/-- A part whose free-form properties shadow all three fixed
columns. -/
def exPartShadow : SchPart :=
  { id := "X", desc := "fixed desc", designator := "U1",
    properties := [("id", "shadowid"), ("designator", "D9"), ("description", "shadowdesc")],
    footprints := [] }

/-
  Helper lemmas.
-/

theorem alookup_upsert_self {β : Type} (m : List (String × β)) (k : String) (v : β) :
    alookup k (upsert m k v) = some v := by
  induction m with
  | nil => simp [upsert, alookup]
  | cons hd tl ih =>
      obtain ⟨k2, v2⟩ := hd
      by_cases h : k2 = k
      · simp [upsert, h, alookup]
      · simp [upsert, h, alookup, ih]

theorem alookup_upsert_ne {β : Type} (m : List (String × β)) (k k1 : String) (v : β)
    (h : k1 ≠ k) : alookup k1 (upsert m k v) = alookup k1 m := by
  have hne : ¬(k = k1) := Ne.symm h
  induction m with
  | nil => simp [upsert, alookup, hne]
  | cons hd tl ih =>
      obtain ⟨k2, v2⟩ := hd
      by_cases h2 : k2 = k
      · subst h2
        simp [upsert, alookup, hne]
      · simp [upsert, h2, alookup, ih]

theorem upsert_of_not_mem {β : Type} (m : List (String × β)) (k : String) (v : β)
    (h : k ∉ m.map Prod.fst) : upsert m k v = m ++ [(k, v)] := by
  induction m with
  | nil => simp [upsert]
  | cons hd tl ih =>
      obtain ⟨k2, v2⟩ := hd
      simp only [List.map_cons, List.mem_cons] at h
      push_neg at h
      have hne : ¬(k2 = k) := Ne.symm h.1
      simp [upsert, hne, ih h.2]

theorem alookup_foldl_upsert_of_not_mem {β : Type} (l : List (String × β)) (k : String) :
    k ∉ l.map Prod.fst → ∀ b : List (String × β),
      alookup k (l.foldl (fun acc q => upsert acc q.1 q.2) b) = alookup k b := by
  induction l with
  | nil => intro _ b; simp
  | cons hd tl ih =>
      intro h b
      obtain ⟨k2, v2⟩ := hd
      simp only [List.map_cons, List.mem_cons] at h
      push_neg at h
      simp only [List.foldl_cons]
      rw [ih h.2]
      exact alookup_upsert_ne b k2 k v2 h.1

theorem alookup_foldl_upsert_of_mem {β : Type} (l : List (String × β)) (k : String) (v : β) :
    (l.map Prod.fst).Nodup → alookup k l = some v → ∀ b : List (String × β),
      alookup k (l.foldl (fun acc q => upsert acc q.1 q.2) b) = some v := by
  induction l with
  | nil => intro _ hl; simp [alookup] at hl
  | cons hd tl ih =>
      intro hnd hl b
      obtain ⟨k2, v2⟩ := hd
      simp only [List.map_cons, List.nodup_cons] at hnd
      by_cases h : k2 = k
      · have hv : v2 = v := by simpa [alookup, h] using hl
        have hmem : k ∉ tl.map Prod.fst := h ▸ hnd.1
        simp only [List.foldl_cons]
        rw [alookup_foldl_upsert_of_not_mem tl k hmem, h, alookup_upsert_self, hv]
      · have hl2 : alookup k tl = some v := by simpa [alookup, h] using hl
        simp only [List.foldl_cons]
        exact ih hnd.2 hl2 _

theorem buildRecords_append (xs ys : List (Option Record)) (p : SchPart) :
    buildRecords p (xs ++ ys) =
      match buildRecords p xs with
      | .error e => .error e
      | .ok q => buildRecords q ys := by
  induction xs generalizing p with
  | nil => simp [buildRecords]
  | cons r rest ih =>
      simp only [List.cons_append, buildRecords]
      cases processRecord p r with
      | error e => rfl
      | ok q => exact ih q

theorem decodeAscii_high (bs : ByteStr) (h : hasHighByte bs) :
    decodeAscii bs = .error .unicodeDecodeError := by
  obtain ⟨b, hb, hge⟩ := h
  rw [decodeAscii, if_neg]
  intro hall
  have := List.all_eq_true.mp hall b hb
  simp at this
  omega

theorem utf8Lead_none_of_invalid (b : Nat)
    (h : (128 ≤ b ∧ b ≤ 193) ∨ 245 ≤ b) : utf8Lead b = none := by
  rcases h with ⟨h1, h2⟩ | h1 <;>
    · rw [utf8Lead]
      rw [if_neg (by omega)]
      rw [if_neg (by omega)]
      rw [if_neg (by omega)]
      rw [if_neg (by omega)]
      rw [if_neg (by omega)]
      rw [if_neg (by omega)]
      rw [if_neg (by omega)]
      rw [if_neg (by omega)]

theorem utf8Aux_append_ascii (xs : List Nat) :
    (∀ a ∈ xs, a < 128) → ∀ ys : List Nat,
      utf8Aux none (xs ++ ys) = xs.map Char.ofNat ++ utf8Aux none ys := by
  induction xs with
  | nil => intro _ ys; simp
  | cons b rest ih =>
      intro h ys
      have hb : b < 128 := h b (List.mem_cons_self b rest)
      have ihy := ih (fun a ha => h a (List.mem_cons_of_mem b ha)) ys
      simp [utf8Aux, hb, ihy]

theorem utf8Aux_ascii (bs : List Nat) (h : ∀ a ∈ bs, a < 128) :
    utf8Aux none bs = bs.map Char.ofNat := by
  have := utf8Aux_append_ascii bs h []
  simpa [utf8Aux] using this

theorem replaceNL_no_newline (cs : List Char) : ∀ c ∈ replaceNL cs, c ≠ '\n' := by
  intro c hc
  simp only [replaceNL, List.mem_map] at hc
  obtain ⟨c0, _, rfl⟩ := hc
  by_cases h : c0 = '\n'
  · simp [h]
  · simp [h]

theorem processRecord_kind41 (p : SchPart) (r : Record) (nb tb : ByteStr) (n t : String)
    (hk : r.get_int "RECORD" = .ok 41) (hn : r.get "NAME" = some nb)
    (hdn : decodeAscii nb = .ok n) (ht : r.getD "TEXT" [] = tb)
    (hdt : decodeAscii tb = .ok t) :
    processRecord p (some r) = .ok { p with properties := upsert p.properties n t } := by
  simp [processRecord, hk, hn, decodeReqAscii, hdn, ht, hdt]

theorem processRecord_kind34 (p : SchPart) (r : Record) (tb : ByteStr) (t : String)
    (hk : r.get_int "RECORD" = .ok 34) (ht : r.get "TEXT" = some tb)
    (hdt : decodeAscii tb = .ok t) :
    processRecord p (some r) = .ok { p with designator := t } := by
  simp [processRecord, hk, ht, decodeReqAscii, hdt]

theorem processRecord_kind34_missing (p : SchPart) (r : Record)
    (hk : r.get_int "RECORD" = .ok 34) (ht : r.get "TEXT" = none) :
    processRecord p (some r) = .error .attrError := by
  simp [processRecord, hk, ht, decodeReqAscii]

theorem processRecord_kind45 (p : SchPart) (r : Record) (nb tb : ByteStr) (n t : String)
    (hk : r.get_int "RECORD" = .ok 45) (hn : r.get "MODELNAME" = some nb)
    (hdn : decodeAscii nb = .ok n) (ht : r.getD "DESCRIPTION" [] = tb)
    (hdt : decodeAscii tb = .ok t) :
    processRecord p (some r) = .ok { p with footprints := upsert p.footprints n t } := by
  simp [processRecord, hk, hn, decodeReqAscii, hdn, ht, hdt]

theorem processRecord_other (p : SchPart) (r : Record) (k : Int)
    (hk : r.get_int "RECORD" = .ok k) (h41 : k ≠ 41) (h34 : k ≠ 34) (h45 : k ≠ 45) :
    processRecord p (some r) = .ok p := by
  simp [processRecord, hk, h41, h34, h45]

theorem entryAt_eq_some (file : OleFile) (header : Record) (n : Nat) (lb : ByteStr)
    (name : String) (stream : List (Option Record)) (part : SchPart)
    (hlb : header.get (libRefKey n) = some lb) (hne : lb ≠ [])
    (hdec : decodeAscii lb = .ok name) (hs : openStream file name = some stream)
    (hp : SchPart.build stream (descAt header n) = .ok part) :
    entryAt file header n = some (name, part) := by
  cases lb with
  | nil => exact absurd rfl hne
  | cons b bs => simp [entryAt, hlb, hdec, hs, hp]

theorem entryAt_eq_none_err (file : OleFile) (header : Record) (n : Nat) (lb : ByteStr)
    (name : String) (stream : List (Option Record)) (e : PyErr)
    (hlb : header.get (libRefKey n) = some lb) (hne : lb ≠ [])
    (hdec : decodeAscii lb = .ok name) (hs : openStream file name = some stream)
    (hp : SchPart.build stream (descAt header n) = .error e) :
    entryAt file header n = none := by
  cases lb with
  | nil => exact absurd rfl hne
  | cons b bs => simp [entryAt, hlb, hdec, hs, hp]

theorem entryAt_isSome_of_succeeds (file : OleFile) (header : Record) (n : Nat)
    (h : indexSucceeds file header n) : (entryAt file header n).isSome = true := by
  obtain ⟨lb, name, stream, part, hlb, hne, hdec, hs, hp⟩ := h
  rw [entryAt_eq_some file header n lb name stream part hlb hne hdec hs hp]
  rfl

theorem indexOk_of_succeeds (file : OleFile) (header : Record) (n : Nat)
    (h : indexSucceeds file header n) : indexOk file header n := by
  obtain ⟨lb, name, stream, part, hlb, hne, hdec, hs, hp⟩ := h
  exact ⟨lb, name, stream, hlb, hne, hdec, hs, Or.inl ⟨part, hp⟩⟩

theorem loop_stop (file : OleFile) (header : Record) (fuel cnt : Nat)
    (parts : List (String × SchPart)) (h : stopsAt header cnt) :
    SchLib.loop file header (fuel + 1) cnt parts = .ok parts := by
  rcases h with h | h <;> simp [SchLib.loop, h]

theorem loop_run (file : OleFile) (header : Record) (fuel : Nat) :
    ∀ (N cnt : Nat) (acc : List (String × SchPart)),
      (∀ i, i < N → indexOk file header (cnt + i)) →
      (acc.map Prod.fst ++ (producedEntries file header cnt N).map Prod.fst).Nodup →
      SchLib.loop file header (N + fuel) cnt acc =
        SchLib.loop file header fuel (cnt + N) (acc ++ producedEntries file header cnt N) := by
  intro N
  induction N with
  | zero => intro cnt acc _ _; simp [producedEntries]
  | succ N ih =>
      intro cnt acc hidx hfresh
      obtain ⟨lb, name, stream, hlb, hne, hdec, hs, hout⟩ := hidx 0 (Nat.succ_pos N)
      rw [Nat.add_zero] at hlb hout
      have hstep : (N + 1) + fuel = (N + fuel) + 1 := by omega
      rw [hstep]
      have hidx2 : ∀ i, i < N → indexOk file header ((cnt + 1) + i) := by
        intro i hi
        have h2 := hidx (i + 1) (by omega)
        rwa [(by omega : cnt + (i + 1) = (cnt + 1) + i)] at h2
      cases lb with
      | nil => exact absurd rfl hne
      | cons b bs =>
          rcases hout with ⟨part, hpart⟩ | ⟨e, herr, hve⟩
          · have hent : entryAt file header cnt = some (name, part) :=
              entryAt_eq_some file header cnt (b :: bs) name stream part hlb hne hdec hs hpart
            have hprod : producedEntries file header cnt (N + 1) =
                (name, part) :: producedEntries file header (cnt + 1) N := by
              simp [producedEntries, hent]
            rw [hprod] at hfresh
            have hnotin : name ∉ acc.map Prod.fst := by
              rw [List.nodup_append] at hfresh
              intro hmem
              exact (hfresh.2.2 hmem) (by simp)
            have hfresh2 : ((acc ++ [(name, part)]).map Prod.fst ++
                (producedEntries file header (cnt + 1) N).map Prod.fst).Nodup := by
              simpa [List.append_assoc] using hfresh
            have lhs : SchLib.loop file header ((N + fuel) + 1) cnt acc =
                SchLib.loop file header (N + fuel) (cnt + 1) (upsert acc name part) := by
              simp [SchLib.loop, hlb, hdec, hs, hpart]
            rw [lhs, upsert_of_not_mem acc name part hnotin,
              ih (cnt + 1) (acc ++ [(name, part)]) hidx2 hfresh2, hprod,
              (by omega : (cnt + 1) + N = cnt + (N + 1))]
            simp [List.append_assoc]
          · have hent : entryAt file header cnt = none :=
              entryAt_eq_none_err file header cnt (b :: bs) name stream e hlb hne hdec hs herr
            have hprod : producedEntries file header cnt (N + 1) =
                producedEntries file header (cnt + 1) N := by
              simp [producedEntries, hent]
            rw [hprod] at hfresh
            have lhs : SchLib.loop file header ((N + fuel) + 1) cnt acc =
                SchLib.loop file header (N + fuel) (cnt + 1) acc := by
              simp [SchLib.loop, hlb, hdec, hs, herr, hve]
            rw [lhs, ih (cnt + 1) acc hidx2 hfresh, hprod,
              (by omega : (cnt + 1) + N = cnt + (N + 1))]

theorem length_producedEntries (file : OleFile) (header : Record) :
    ∀ (N cnt : Nat), (producedEntries file header cnt N).length = someCount file header cnt N := by
  intro N
  induction N with
  | zero => intro cnt; simp [producedEntries, someCount]
  | succ N ih =>
      intro cnt
      cases h : entryAt file header cnt
      · simp [producedEntries, someCount, h, ih]
      · simp [producedEntries, someCount, h, ih]
        omega

theorem someCount_all (file : OleFile) (header : Record) :
    ∀ (N cnt : Nat), (∀ i, i < N → (entryAt file header (cnt + i)).isSome = true) →
      someCount file header cnt N = N := by
  intro N
  induction N with
  | zero => intro cnt _; simp [someCount]
  | succ N ih =>
      intro cnt h
      have h0 := h 0 (Nat.succ_pos N)
      rw [Nat.add_zero] at h0
      have hrest : ∀ i, i < N → (entryAt file header ((cnt + 1) + i)).isSome = true := by
        intro i hi
        have h2 := h (i + 1) (by omega)
        rwa [(by omega : cnt + (i + 1) = (cnt + 1) + i)] at h2
      simp [someCount, h0, ih (cnt + 1) hrest]
      omega

theorem someCount_one_none (file : OleFile) (header : Record) :
    ∀ (N cnt j : Nat), j < N → entryAt file header (cnt + j) = none →
      (∀ i, i < N → i ≠ j → (entryAt file header (cnt + i)).isSome = true) →
      someCount file header cnt N = N - 1 := by
  intro N
  induction N with
  | zero => intro cnt j hj _ _; exact absurd hj (Nat.not_lt_zero j)
  | succ N ih =>
      intro cnt j hj hnone hsome
      cases j with
      | zero =>
          rw [Nat.add_zero] at hnone
          have hrest : ∀ i, i < N → (entryAt file header ((cnt + 1) + i)).isSome = true := by
            intro i hi
            have h2 := hsome (i + 1) (by omega) (by omega)
            rwa [(by omega : cnt + (i + 1) = (cnt + 1) + i)] at h2
          simp [someCount, hnone, someCount_all file header N (cnt + 1) hrest]
      | succ j =>
          have h0 := hsome 0 (Nat.succ_pos N) (by omega)
          rw [Nat.add_zero] at h0
          have hnone2 : entryAt file header ((cnt + 1) + j) = none := by
            rwa [(by omega : cnt + (j + 1) = (cnt + 1) + j)] at hnone
          have hsome2 : ∀ i, i < N → i ≠ j → (entryAt file header ((cnt + 1) + i)).isSome = true := by
            intro i hi hij
            have h2 := hsome (i + 1) (by omega) (by omega)
            rwa [(by omega : cnt + (i + 1) = (cnt + 1) + i)] at h2
          have hj2 : j < N := by omega
          have hc := ih (cnt + 1) j hj2 hnone2 hsome2
          simp [someCount, h0, hc]
          omega

theorem build_cons_some (hdr : Record) (rest : List (Option Record)) (d idv : String)
    (hh : headerId hdr = .ok idv) :
    SchPart.build (some hdr :: rest) d = buildRecords (SchPart.initial idv d) rest := by
  simp [SchPart.build, hh]

theorem build_eq_loop (file : OleFile) (header : Record) (rest : List (Option Record)) (fuel : Nat)
    (hfh : file.fileHeaderRecords = some header :: rest)
    (hsig : header.get "HEADER" = some headerSig)
    (hver : header.get "MINORVERSION" = some minorVer) :
    SchLib.build file fuel =
      match SchLib.loop file header fuel 0 [] with
      | .error e => .error e
      | .ok parts => .ok ⟨parts⟩ := by
  simp [SchLib.build, hfh, Record.check, hsig, hver]

theorem check_cases (r : Record) (key : String) (expected alternate : Option ByteStr) :
    Record.check r key expected alternate = .ok () ∨
      Record.check r key expected alternate = .error .formatError := by
  cases h : Record.get r key with
  | none => right; simp [Record.check, h]
  | some v =>
      by_cases hc : expected = some v ∨ alternate = some v
      · left; simp [Record.check, h, hc]
      · right; simp [Record.check, h, hc]

theorem check_fails_of_value_ne (r : Record) (key : String) (w : ByteStr)
    (hbad : r.get key ≠ some w) :
    Record.check r key (some w) none = .error .formatError ∧
      Record.check r key none (some w) = .error .formatError := by
  cases hh : Record.get r key with
  | none => simp [Record.check, hh]
  | some v =>
      have hne : ¬(w = v) := by
        intro h
        exact hbad (by rw [hh, h])
      constructor <;> simp [Record.check, hh, hne]

theorem loop_fatal (file : OleFile) (header : Record) (fuel cnt : Nat)
    (parts : List (String × SchPart)) (lb : ByteStr) (name : String)
    (stream : List (Option Record)) (e : PyErr)
    (hlb : header.get (libRefKey cnt) = some lb) (hne : lb ≠ [])
    (hdec : decodeAscii lb = .ok name) (hs : openStream file name = some stream)
    (hb : SchPart.build stream (descAt header cnt) = .error e)
    (hve : e.isValueError = false) :
    SchLib.loop file header (fuel + 1) cnt parts = .error e := by
  cases lb with
  | nil => exact absurd rfl hne
  | cons b bs => simp [SchLib.loop, hlb, hdec, hs, hb, hve]

theorem loop_nostream (file : OleFile) (header : Record) (fuel cnt : Nat)
    (parts : List (String × SchPart)) (lb : ByteStr) (name : String)
    (hlb : header.get (libRefKey cnt) = some lb) (hne : lb ≠ [])
    (hdec : decodeAscii lb = .ok name) (hs : openStream file name = none) :
    SchLib.loop file header (fuel + 1) cnt parts = .error .notFound := by
  cases lb with
  | nil => exact absurd rfl hne
  | cons b bs => simp [SchLib.loop, hlb, hdec, hs]

/-
  Claim theorems.
-/

/-- Claim C3 (confirmed): a record after the header that fails
property decoding (modelled by `none` in the record stream) is skipped
and the part is assembled exactly as if that record were absent — a
malformed interior record never aborts the part, and identity,
designator, properties and footprints come from the remaining valid
records. -/
theorem c3_decode_failure_skips_record (h0 : Option Record) (pre post : List (Option Record))
    (d : String) :
    SchPart.build (h0 :: (pre ++ none :: post)) d = SchPart.build (h0 :: (pre ++ post)) d := by
  cases h0 with
  | none => rfl
  | some hdr =>
      simp only [SchPart.build]
      cases headerId hdr with
      | error e => rfl
      | ok idv =>
          dsimp only
          rw [buildRecords_append, buildRecords_append]
          cases buildRecords (SchPart.initial idv d) pre with
          | error e => rfl
          | ok q => simp [buildRecords, processRecord]

/-- Claim C5 (confirmed): dispatch on the decoded `RECORD` field —
kind 41 stores `NAME` mapped to `TEXT` in the properties map with
`TEXT` defaulting to empty when absent; kind 34 overwrites the
designator with `TEXT` and fails with an error (AttributeError) when
`TEXT` is absent; kind 45 stores `MODELNAME` mapped to `DESCRIPTION`
in the footprints map with `DESCRIPTION` defaulting to empty; any
other kind leaves the part unchanged. -/
theorem c5_record_kind_dispatch (p : SchPart) (r : Record) :
    (∀ (nb tb : ByteStr) (n t : String), r.get_int "RECORD" = .ok 41 →
        r.get "NAME" = some nb → decodeAscii nb = .ok n →
        r.get "TEXT" = some tb → decodeAscii tb = .ok t →
        processRecord p (some r) = .ok { p with properties := upsert p.properties n t })
    ∧ (∀ (nb : ByteStr) (n : String), r.get_int "RECORD" = .ok 41 →
        r.get "NAME" = some nb → decodeAscii nb = .ok n → r.get "TEXT" = none →
        processRecord p (some r) = .ok { p with properties := upsert p.properties n "" })
    ∧ (∀ (tb : ByteStr) (t : String), r.get_int "RECORD" = .ok 34 →
        r.get "TEXT" = some tb → decodeAscii tb = .ok t →
        processRecord p (some r) = .ok { p with designator := t })
    ∧ (r.get_int "RECORD" = .ok 34 → r.get "TEXT" = none →
        processRecord p (some r) = .error .attrError)
    ∧ (∀ (nb tb : ByteStr) (n t : String), r.get_int "RECORD" = .ok 45 →
        r.get "MODELNAME" = some nb → decodeAscii nb = .ok n →
        r.get "DESCRIPTION" = some tb → decodeAscii tb = .ok t →
        processRecord p (some r) = .ok { p with footprints := upsert p.footprints n t })
    ∧ (∀ (nb : ByteStr) (n : String), r.get_int "RECORD" = .ok 45 →
        r.get "MODELNAME" = some nb → decodeAscii nb = .ok n → r.get "DESCRIPTION" = none →
        processRecord p (some r) = .ok { p with footprints := upsert p.footprints n "" })
    ∧ (∀ k : Int, r.get_int "RECORD" = .ok k → k ≠ 41 → k ≠ 34 → k ≠ 45 →
        processRecord p (some r) = .ok p) := by
  refine ⟨?_, ?_, ?_, ?_, ?_, ?_, ?_⟩
  · intro nb tb n t hk hn hdn ht hdt
    exact processRecord_kind41 p r nb tb n t hk hn hdn (by simp [Record.getD, ht]) hdt
  · intro nb n hk hn hdn ht
    exact processRecord_kind41 p r nb [] n "" hk hn hdn (by simp [Record.getD, ht]) rfl
  · intro tb t hk ht hdt
    exact processRecord_kind34 p r tb t hk ht hdt
  · intro hk ht
    exact processRecord_kind34_missing p r hk ht
  · intro nb tb n t hk hn hdn ht hdt
    exact processRecord_kind45 p r nb tb n t hk hn hdn (by simp [Record.getD, ht]) hdt
  · intro nb n hk hn hdn ht
    exact processRecord_kind45 p r nb [] n "" hk hn hdn (by simp [Record.getD, ht]) rfl
  · intro k hk h41 h34 h45
    exact processRecord_other p r k hk h41 h34 h45

/-- Witness for C5 at concrete records of every dispatch class. -/
theorem c5_witness :
    processRecord exP0 (some exRec41) =
      .ok { exP0 with properties := upsert exP0.properties "Comment" "10k" }
    ∧ processRecord exP0 (some exRec41NoText) =
      .ok { exP0 with properties := upsert exP0.properties "Comment" "" }
    ∧ processRecord exP0 (some exRec34) = .ok { exP0 with designator := "U?" }
    ∧ processRecord exP0 (some exRec34NoText) = .error .attrError
    ∧ processRecord exP0 (some exRec45) =
      .ok { exP0 with footprints := upsert exP0.footprints "M1" "pkg" }
    ∧ processRecord exP0 (some exRec45NoText) =
      .ok { exP0 with footprints := upsert exP0.footprints "M1" "" }
    ∧ processRecord exP0 (some exRec99) = .ok exP0 :=
  ⟨(c5_record_kind_dispatch exP0 exRec41).1 (asciiBytes "Comment") (asciiBytes "10k")
      "Comment" "10k" rfl rfl rfl rfl rfl,
   (c5_record_kind_dispatch exP0 exRec41NoText).2.1 (asciiBytes "Comment") "Comment"
      rfl rfl rfl rfl,
   (c5_record_kind_dispatch exP0 exRec34).2.2.1 (asciiBytes "U?") "U?" rfl rfl rfl,
   (c5_record_kind_dispatch exP0 exRec34NoText).2.2.2.1 rfl rfl,
   (c5_record_kind_dispatch exP0 exRec45).2.2.2.2.1 (asciiBytes "M1") (asciiBytes "pkg")
      "M1" "pkg" rfl rfl rfl rfl rfl,
   (c5_record_kind_dispatch exP0 exRec45NoText).2.2.2.2.2.1 (asciiBytes "M1") "M1"
      rfl rfl rfl rfl,
   (c5_record_kind_dispatch exP0 exRec99).2.2.2.2.2.2 99 rfl (by decide) (by decide) (by decide)⟩

/-- Claim C7 (confirmed, against the spec-modelled `check`): unless the
FileHeader's first record carries the exact signature byte string under
`HEADER` and the exact byte string `"2"` under `MINORVERSION`, library
construction fails immediately with a format error and no library (not
even a partial one) is produced. -/
theorem c7_header_validation (file : OleFile) (header : Record) (rest : List (Option Record))
    (fuel : Nat)
    (hfh : file.fileHeaderRecords = some header :: rest)
    (hbad : header.get "HEADER" ≠ some headerSig ∨ header.get "MINORVERSION" ≠ some minorVer) :
    SchLib.build file fuel = .error .formatError := by
  rcases hbad with hbad | hbad
  · have hc := (check_fails_of_value_ne header "HEADER" headerSig hbad).1
    simp [SchLib.build, hfh, hc]
  · rcases check_cases header "HEADER" (some headerSig) none with hok | herr
    · have hc := (check_fails_of_value_ne header "MINORVERSION" minorVer hbad).2
      simp [SchLib.build, hfh, hok, hc]
    · simp [SchLib.build, hfh, herr]

/-- Witness for C7 at a concrete library with a wrong signature. -/
theorem c7_witness : SchLib.build exFileBadSig 1 = .error .formatError :=
  c7_header_validation exFileBadSig exBadSigHeader [] 1 rfl (Or.inl (by decide))

/-- Claim C8 (confirmed): the part description is the
UTF-8-with-replacement decode of the `COMPDESCR{n}` bytes followed by
replacing each newline character with a single space; the decode is
total (the composition has type `String`, not `Except`), agrees with
the plain character decode on ASCII input, replaces an invalid byte
with U+FFFD instead of failing, and its output never contains a
newline. -/
theorem c8_description_permissive :
    (∀ bs : ByteStr, descOf bs = String.mk (replaceNL (utf8DecodeReplace bs)))
    ∧ (∀ bs : ByteStr, ∀ c ∈ (descOf bs).data, c ≠ '\n')
    ∧ (∀ bs : ByteStr, (∀ a ∈ bs, a < 128) → utf8DecodeReplace bs = bs.map Char.ofNat)
    ∧ (∀ (bs : ByteStr) (b : Nat), (∀ a ∈ bs, a < 128) → (128 ≤ b ∧ b ≤ 193 ∨ 245 ≤ b) →
        utf8DecodeReplace (bs ++ [b]) = bs.map Char.ofNat ++ ['�']) := by
  refine ⟨fun bs => rfl, ?_, ?_, ?_⟩
  · intro bs c hc
    exact replaceNL_no_newline (utf8DecodeReplace bs) c hc
  · intro bs h
    exact utf8Aux_ascii bs h
  · intro bs b hascii hb
    rw [utf8DecodeReplace, utf8Aux_append_ascii bs hascii [b]]
    congr 1
    have hlead : utf8Lead b = none := utf8Lead_none_of_invalid b hb
    have hge : ¬(b < 128) := by rcases hb with ⟨h1, _⟩ | h1 <;> omega
    simp [utf8Aux, hge, hlead]

/-- Witness for C8 at concrete byte strings. -/
theorem c8_witness :
    descOf [67, 10, 200] = String.mk (replaceNL (utf8DecodeReplace [67, 10, 200]))
    ∧ (' ' : Char) ≠ '\n'
    ∧ utf8DecodeReplace [72, 105] = [72, 105].map Char.ofNat
    ∧ utf8DecodeReplace ([72] ++ [255]) = [72].map Char.ofNat ++ ['�'] :=
  ⟨c8_description_permissive.1 [67, 10, 200],
   c8_description_permissive.2.1 [67, 10, 200] ' ' (by decide),
   c8_description_permissive.2.2.1 [72, 105] (by decide),
   c8_description_permissive.2.2.2 [72] 255 (by decide) (by decide)⟩

/-- Claim C10 (confirmed): `params()` builds the fixed
id/designator/description row and then merges the free-form properties
over it, so a property named `id`, `designator` or `description`
shadows the fixed column value in the exported row. -/
theorem c10_params_shadow (p : SchPart) (hnd : (p.properties.map Prod.fst).Nodup) :
    (∀ v, alookup "id" p.properties = some v → alookup "id" p.params = some v)
    ∧ (∀ v, alookup "designator" p.properties = some v → alookup "designator" p.params = some v)
    ∧ (∀ v, alookup "description" p.properties = some v →
        alookup "description" p.params = some v) := by
  refine ⟨?_, ?_, ?_⟩ <;> intro v hv <;>
    exact alookup_foldl_upsert_of_mem p.properties _ v hnd hv _

/-- Witness for C10 at a part shadowing all three fixed columns. -/
theorem c10_witness :
    alookup "id" exPartShadow.params = some "shadowid"
    ∧ alookup "designator" exPartShadow.params = some "D9"
    ∧ alookup "description" exPartShadow.params = some "shadowdesc" :=
  ⟨(c10_params_shadow exPartShadow (by decide)).1 "shadowid" rfl,
   (c10_params_shadow exPartShadow (by decide)).2.1 "D9" rfl,
   (c10_params_shadow exPartShadow (by decide)).2.2 "shadowdesc" rfl⟩

/-- Claim C4 (confirmed): for a well-formed library (contiguous
non-empty `LIBREF{n}` entries up to `N` with distinct, decodable
references whose parts all construct), the part table is exactly the
entries of those `N` indices — so it has `N` entries — and the
discovery loop terminates cleanly (with a part table, not an error) at
the first index whose `LIBREF{n}` is absent or empty. -/
theorem c4_part_table_count (file : OleFile) (header : Record) (rest : List (Option Record))
    (N fuel : Nat)
    (hfh : file.fileHeaderRecords = some header :: rest)
    (hsig : header.get "HEADER" = some headerSig)
    (hver : header.get "MINORVERSION" = some minorVer)
    (hgood : ∀ i, i < N → indexSucceeds file header i)
    (hstop : stopsAt header N)
    (hfresh : ((producedEntries file header 0 N).map Prod.fst).Nodup)
    (hfuel : N < fuel) :
    SchLib.build file fuel = .ok ⟨producedEntries file header 0 N⟩
    ∧ (producedEntries file header 0 N).length = N := by
  have hidx : ∀ i, i < N → indexOk file header (0 + i) := by
    intro i hi
    rw [Nat.zero_add]
    exact indexOk_of_succeeds file header i (hgood i hi)
  have hfr : (([] : List (String × SchPart)).map Prod.fst ++
      (producedEntries file header 0 N).map Prod.fst).Nodup := by simpa using hfresh
  have hrun := loop_run file header (fuel - N) N 0 [] hidx hfr
  rw [(by omega : N + (fuel - N) = fuel)] at hrun
  simp only [Nat.zero_add, List.nil_append] at hrun
  obtain ⟨m, hm⟩ : ∃ m, fuel - N = m + 1 := ⟨fuel - N - 1, by omega⟩
  rw [hm] at hrun
  have hstop2 := loop_stop file header m N (producedEntries file header 0 N) hstop
  have hloop : SchLib.loop file header fuel 0 [] = .ok (producedEntries file header 0 N) := by
    rw [hrun, hstop2]
  constructor
  · rw [build_eq_loop file header rest fuel hfh hsig hver, hloop]
  · rw [length_producedEntries]
    apply someCount_all
    intro i hi
    rw [Nat.zero_add]
    exact entryAt_isSome_of_succeeds file header i (hgood i hi)

/-- Witness for C4 at a concrete two-part library. -/
theorem c4_witness :
    SchLib.build exFileC1Fixed 3 = .ok ⟨producedEntries exFileC1Fixed exLibHeader 0 2⟩
    ∧ (producedEntries exFileC1Fixed exLibHeader 0 2).length = 2 := by
  apply c4_part_table_count exFileC1Fixed exLibHeader [] 2 3 rfl rfl rfl ?good (Or.inl rfl)
    (by decide) (by omega)
  intro i hi
  match i, hi with
  | 0, _ =>
      exact ⟨asciiBytes "A", "A", exStreamA, SchPart.initial "A" "", rfl, by decide, rfl, rfl, rfl⟩
  | 1, _ =>
      exact ⟨asciiBytes "B", "B", exStreamB, exPartB, rfl, by decide, rfl, rfl, rfl⟩

/-- Claim C6 (confirmed): when two kind-41 records in one part stream
carry the same `NAME` and different `TEXT` values, the assembled
properties map holds the `TEXT` of the later record; the same
last-wins rule holds for kind-45 footprint records sharing a
`MODELNAME`.  The later record is the stream's final record; the
records between the two are arbitrary. -/
theorem c6_last_occurrence_wins :
    (∀ (hdr : Record) (pre mid : List (Option Record)) (r1 r2 : Record) (d : String)
        (nb t1b t2b : ByteStr) (n t1 t2 : String) (part : SchPart),
        r1.get_int "RECORD" = .ok 41 → r1.get "NAME" = some nb → r1.getD "TEXT" [] = t1b →
        r2.get_int "RECORD" = .ok 41 → r2.get "NAME" = some nb → r2.getD "TEXT" [] = t2b →
        decodeAscii nb = .ok n → decodeAscii t1b = .ok t1 → decodeAscii t2b = .ok t2 →
        t1 ≠ t2 →
        SchPart.build (some hdr :: (pre ++ some r1 :: mid ++ [some r2])) d = .ok part →
        alookup n part.properties = some t2)
    ∧ (∀ (hdr : Record) (pre mid : List (Option Record)) (r1 r2 : Record) (d : String)
        (nb t1b t2b : ByteStr) (n t1 t2 : String) (part : SchPart),
        r1.get_int "RECORD" = .ok 45 → r1.get "MODELNAME" = some nb →
        r1.getD "DESCRIPTION" [] = t1b →
        r2.get_int "RECORD" = .ok 45 → r2.get "MODELNAME" = some nb →
        r2.getD "DESCRIPTION" [] = t2b →
        decodeAscii nb = .ok n → decodeAscii t1b = .ok t1 → decodeAscii t2b = .ok t2 →
        t1 ≠ t2 →
        SchPart.build (some hdr :: (pre ++ some r1 :: mid ++ [some r2])) d = .ok part →
        alookup n part.footprints = some t2) := by
  constructor
  · intro hdr pre mid r1 r2 d nb t1b t2b n t1 t2 part hk1 hn1 ht1 hk2 hn2 ht2 hdn hdt1 hdt2
      hne hbuild
    rw [(by simp : pre ++ some r1 :: mid ++ [some r2] = (pre ++ some r1 :: mid) ++ [some r2])]
      at hbuild
    cases hh : headerId hdr with
    | error e =>
        rw [SchPart.build, hh] at hbuild
        exact absurd hbuild (by simp)
    | ok idv =>
        rw [build_cons_some hdr _ d idv hh, buildRecords_append] at hbuild
        cases hq : buildRecords (SchPart.initial idv d) (pre ++ some r1 :: mid) with
        | error e =>
            rw [hq] at hbuild
            exact absurd hbuild (by simp)
        | ok q =>
            rw [hq] at hbuild
            dsimp only at hbuild
            have hstep := processRecord_kind41 q r2 nb t2b n t2 hk2 hn2 hdn ht2 hdt2
            have hone : buildRecords q [some r2] =
                .ok { q with properties := upsert q.properties n t2 } := by
              simp [buildRecords, hstep]
            rw [hone] at hbuild
            injection hbuild with hp
            subst hp
            exact alookup_upsert_self q.properties n t2
  · intro hdr pre mid r1 r2 d nb t1b t2b n t1 t2 part hk1 hn1 ht1 hk2 hn2 ht2 hdn hdt1 hdt2
      hne hbuild
    rw [(by simp : pre ++ some r1 :: mid ++ [some r2] = (pre ++ some r1 :: mid) ++ [some r2])]
      at hbuild
    cases hh : headerId hdr with
    | error e =>
        rw [SchPart.build, hh] at hbuild
        exact absurd hbuild (by simp)
    | ok idv =>
        rw [build_cons_some hdr _ d idv hh, buildRecords_append] at hbuild
        cases hq : buildRecords (SchPart.initial idv d) (pre ++ some r1 :: mid) with
        | error e =>
            rw [hq] at hbuild
            exact absurd hbuild (by simp)
        | ok q =>
            rw [hq] at hbuild
            dsimp only at hbuild
            have hstep := processRecord_kind45 q r2 nb t2b n t2 hk2 hn2 hdn ht2 hdt2
            have hone : buildRecords q [some r2] =
                .ok { q with footprints := upsert q.footprints n t2 } := by
              simp [buildRecords, hstep]
            rw [hone] at hbuild
            injection hbuild with hp
            subst hp
            exact alookup_upsert_self q.footprints n t2

/-- Witness for C6 at concrete streams with duplicate property and
footprint names. -/
theorem c6_witness :
    alookup "Comment" exPartC6.properties = some "20k"
    ∧ alookup "M1" exPartC6F.footprints = some "pkg2" :=
  ⟨c6_last_occurrence_wins.1 exHdrA [] [some exRec99] exRec41 exRec41b ""
      (asciiBytes "Comment") (asciiBytes "10k") (asciiBytes "20k") "Comment" "10k" "20k"
      exPartC6 rfl rfl rfl rfl rfl rfl rfl rfl rfl (by decide) rfl,
   c6_last_occurrence_wins.2 exHdrA [] [some exRec99] exRec45 exRec45b ""
      (asciiBytes "M1") (asciiBytes "pkg") (asciiBytes "pkg2") "M1" "pkg" "pkg2"
      exPartC6F rfl rfl rfl rfl rfl rfl rfl rfl rfl (by decide) rfl⟩

/-- Counterexample to C1 as stated: in a concrete two-part library
whose first part's header has neither `DESIGNITEMID` nor
`LIBREFERENCE`, construction of the whole library fails with the
(uncaught) AttributeError — no library with one fewer entry is
produced — while the otherwise-identical library with the field
present yields both parts. -/
theorem c1_counterexample :
    SchLib.build exFileC1 3 = .error .attrError
    ∧ SchLib.build exFileC1Fixed 3 =
        .ok ⟨[("A", SchPart.initial "A" ""), ("B", exPartB)]⟩ :=
  ⟨rfl, rfl⟩

/-- Claim C1 (amended): when a part's header record contains neither
`DESIGNITEMID` nor `LIBREFERENCE`, part construction fails with an
AttributeError (`None.decode` on the failed `get`), which the
library's `except ValueError` clause does NOT catch, so the error
propagates and the whole library construction aborts instead of
skipping that one part. -/
theorem c1_missing_identity_aborts_library (file : OleFile) (header : Record)
    (rest : List (Option Record)) (j F : Nat) (lb : ByteStr) (name : String)
    (hdrj : Record) (restj : List (Option Record))
    (hfh : file.fileHeaderRecords = some header :: rest)
    (hsig : header.get "HEADER" = some headerSig)
    (hver : header.get "MINORVERSION" = some minorVer)
    (hgood : ∀ i, i < j → indexOk file header i)
    (hfresh : ((producedEntries file header 0 j).map Prod.fst).Nodup)
    (hlb : header.get (libRefKey j) = some lb) (hne : lb ≠ [])
    (hdec : decodeAscii lb = .ok name)
    (hs : openStream file name = some (some hdrj :: restj))
    (hd1 : hdrj.get "DESIGNITEMID" = none)
    (hd2 : hdrj.get "LIBREFERENCE" = none) :
    SchPart.build (some hdrj :: restj) (descAt header j) = .error .attrError
    ∧ PyErr.isValueError .attrError = false
    ∧ SchLib.build file (j + (F + 1)) = .error .attrError := by
  have hid : headerId hdrj = .error .attrError := by
    simp [headerId, hd1, hd2, decodeReqAscii]
  have hpart : SchPart.build (some hdrj :: restj) (descAt header j) = .error .attrError := by
    simp [SchPart.build, hid]
  refine ⟨hpart, rfl, ?_⟩
  have hidx : ∀ i, i < j → indexOk file header (0 + i) := by
    intro i hi
    rw [Nat.zero_add]
    exact hgood i hi
  have hfr : (([] : List (String × SchPart)).map Prod.fst ++
      (producedEntries file header 0 j).map Prod.fst).Nodup := by simpa using hfresh
  have hrun := loop_run file header (F + 1) j 0 [] hidx hfr
  simp only [Nat.zero_add, List.nil_append] at hrun
  have hfail := loop_fatal file header F j (producedEntries file header 0 j) lb name
    (some hdrj :: restj) .attrError hlb hne hdec hs hpart rfl
  rw [build_eq_loop file header rest (j + (F + 1)) hfh hsig hver, hrun, hfail]

/-- Witness for the amended C1: a concrete library whose second part
lacks both identity fields; the first part is decoded, then the
whole library construction aborts. -/
theorem c1_witness :
    SchPart.build (some exHdrNoId :: []) (descAt exLibHeaderW 1) = .error .attrError
    ∧ PyErr.isValueError .attrError = false
    ∧ SchLib.build exFileC1W 3 = .error .attrError := by
  apply c1_missing_identity_aborts_library exFileC1W exLibHeaderW [] 1 1
    (asciiBytes "A") "A" exHdrNoId [] rfl rfl rfl ?good (by decide) rfl (by decide) rfl rfl rfl rfl
  intro i hi
  match i, hi with
  | 0, _ =>
      exact ⟨asciiBytes "B", "B", exStreamB, rfl, by decide, rfl, rfl, Or.inl ⟨exPartB, rfl⟩⟩

/-- Counterexample to C2 as stated: in a concrete library referencing
parts "A" and "B" whose container has no stream for "A", library
construction fails with the not-found error instead of skipping the
entry and discovering "B". -/
theorem c2_counterexample : SchLib.build exFileC2 3 = .error .notFound := rfl

/-- Claim C2 (amended): when the container has no stream at
`[libref, "Data"]` for a discovered reference, the not-found error is
NOT handled like missing-identity: `openstream` is called outside the
`try` (and its error is no ValueError in any case), so the error
propagates and the whole library construction aborts instead of
skipping that one entry. -/
theorem c2_missing_stream_aborts_library (file : OleFile) (header : Record)
    (rest : List (Option Record)) (j F : Nat) (lb : ByteStr) (name : String)
    (hfh : file.fileHeaderRecords = some header :: rest)
    (hsig : header.get "HEADER" = some headerSig)
    (hver : header.get "MINORVERSION" = some minorVer)
    (hgood : ∀ i, i < j → indexOk file header i)
    (hfresh : ((producedEntries file header 0 j).map Prod.fst).Nodup)
    (hlb : header.get (libRefKey j) = some lb) (hne : lb ≠ [])
    (hdec : decodeAscii lb = .ok name)
    (hs : openStream file name = none) :
    SchLib.build file (j + (F + 1)) = .error .notFound
    ∧ PyErr.isValueError .notFound = false := by
  refine ⟨?_, rfl⟩
  have hidx : ∀ i, i < j → indexOk file header (0 + i) := by
    intro i hi
    rw [Nat.zero_add]
    exact hgood i hi
  have hfr : (([] : List (String × SchPart)).map Prod.fst ++
      (producedEntries file header 0 j).map Prod.fst).Nodup := by simpa using hfresh
  have hrun := loop_run file header (F + 1) j 0 [] hidx hfr
  simp only [Nat.zero_add, List.nil_append] at hrun
  have hfail := loop_nostream file header F j (producedEntries file header 0 j) lb name
    hlb hne hdec hs
  rw [build_eq_loop file header rest (j + (F + 1)) hfh hsig hver, hrun, hfail]

/-- Witness for the amended C2: the concrete library with a missing
"A" stream aborts with the not-found error at the very first index. -/
theorem c2_witness :
    SchLib.build exFileC2 1 = .error .notFound
    ∧ PyErr.isValueError .notFound = false := by
  apply c2_missing_stream_aborts_library exFileC2 exLibHeader [] 0 0 (asciiBytes "A") "A"
    rfl rfl rfl ?good (by decide) rfl (by decide) rfl rfl
  intro i hi
  exact absurd hi (by omega)

theorem headerId_unicode (hdr : Record) (h : unicodeFailingHeader hdr) :
    headerId hdr = .error .unicodeDecodeError := by
  rcases h with ⟨bs, hget, hhigh⟩ | ⟨hnone, bs, hget, hhigh⟩
  · simp [headerId, hget, decodeAscii_high bs hhigh]
  · simp [headerId, hnone, hget, decodeReqAscii, decodeAscii_high bs hhigh]

theorem processRecord_unicode (p : SchPart) (r : Record) (h : unicodeFailingRecord r) :
    processRecord p (some r) = .error .unicodeDecodeError := by
  rcases h with ⟨hk, nb, hn, hh⟩ | ⟨hk, ⟨nb, n, hn, hdn⟩, tb, ht, hh⟩ | ⟨hk, tb, ht, hh⟩
    | ⟨hk, nb, hn, hh⟩ | ⟨hk, ⟨nb, n, hn, hdn⟩, tb, ht, hh⟩
  · simp [processRecord, hk, hn, decodeReqAscii, decodeAscii_high nb hh]
  · simp [processRecord, hk, hn, decodeReqAscii, hdn, Record.getD, ht, decodeAscii_high tb hh]
  · simp [processRecord, hk, ht, decodeReqAscii, decodeAscii_high tb hh]
  · simp [processRecord, hk, hn, decodeReqAscii, decodeAscii_high nb hh]
  · simp [processRecord, hk, hn, decodeReqAscii, hdn, Record.getD, ht, decodeAscii_high tb hh]

/-- Claim C9 (confirmed): a byte 0x80 or above in any of the
ASCII-decoded fields — the identity field (`DESIGNITEMID`, or its
`LIBREFERENCE` fallback), a kind-41 `NAME` or `TEXT`, a kind-34
`TEXT`, or a kind-45 `MODELNAME` or `DESCRIPTION` — makes part
construction fail with a Unicode decode error; that error is a
`ValueError`, so the library's handler drops exactly that part from
the table while parts at other indices are still decoded, leaving
`N - 1` entries. -/
theorem c9_unicode_error_drops_part :
    (∀ (hdr : Record) (rest : List (Option Record)) (d : String),
        unicodeFailingHeader hdr →
        SchPart.build (some hdr :: rest) d = .error .unicodeDecodeError)
    ∧ (∀ (hdr : Record) (pre post : List (Option Record)) (r : Record) (d idv : String)
        (q : SchPart),
        headerId hdr = .ok idv →
        buildRecords (SchPart.initial idv d) pre = .ok q →
        unicodeFailingRecord r →
        SchPart.build (some hdr :: (pre ++ some r :: post)) d = .error .unicodeDecodeError)
    ∧ PyErr.isValueError .unicodeDecodeError = true
    ∧ (∀ (file : OleFile) (header : Record) (rest : List (Option Record)) (N j fuel : Nat)
        (lbj : ByteStr) (namej : String) (streamj : List (Option Record)),
        file.fileHeaderRecords = some header :: rest →
        header.get "HEADER" = some headerSig →
        header.get "MINORVERSION" = some minorVer →
        j < N →
        (∀ i, i < N → i ≠ j → indexSucceeds file header i) →
        stopsAt header N →
        ((producedEntries file header 0 N).map Prod.fst).Nodup →
        header.get (libRefKey j) = some lbj → lbj ≠ [] →
        decodeAscii lbj = .ok namej →
        openStream file namej = some streamj →
        SchPart.build streamj (descAt header j) = .error .unicodeDecodeError →
        N < fuel →
        SchLib.build file fuel = .ok ⟨producedEntries file header 0 N⟩
        ∧ (producedEntries file header 0 N).length = N - 1) := by
  refine ⟨?_, ?_, rfl, ?_⟩
  · intro hdr rest d h
    simp [SchPart.build, headerId_unicode hdr h]
  · intro hdr pre post r d idv q hid hpre h
    rw [build_cons_some hdr _ d idv hid, buildRecords_append, hpre]
    dsimp only
    simp [buildRecords, processRecord_unicode q r h]
  · intro file header rest N j fuel lbj namej streamj hfh hsig hver hj hgood hstop hfresh
      hlb hne hdec hs hpart hfuel
    have hidx : ∀ i, i < N → indexOk file header (0 + i) := by
      intro i hi
      rw [Nat.zero_add]
      by_cases hij : i = j
      · subst hij
        exact ⟨lbj, namej, streamj, hlb, hne, hdec, hs,
          Or.inr ⟨.unicodeDecodeError, hpart, rfl⟩⟩
      · exact indexOk_of_succeeds file header i (hgood i hi hij)
    constructor
    · have hfr : (([] : List (String × SchPart)).map Prod.fst ++
          (producedEntries file header 0 N).map Prod.fst).Nodup := by simpa using hfresh
      have hrun := loop_run file header (fuel - N) N 0 [] hidx hfr
      rw [(by omega : N + (fuel - N) = fuel)] at hrun
      simp only [Nat.zero_add, List.nil_append] at hrun
      obtain ⟨m, hm⟩ : ∃ m, fuel - N = m + 1 := ⟨fuel - N - 1, by omega⟩
      rw [hm] at hrun
      have hstop2 := loop_stop file header m N (producedEntries file header 0 N) hstop
      rw [build_eq_loop file header rest fuel hfh hsig hver, hrun, hstop2]
    · rw [length_producedEntries]
      apply someCount_one_none file header N 0 j hj
      · rw [Nat.zero_add]
        exact entryAt_eq_none_err file header j lbj namej streamj .unicodeDecodeError
          hlb hne hdec hs hpart
      · intro i hi hij
        rw [Nat.zero_add]
        exact entryAt_isSome_of_succeeds file header i (hgood i hi hij)

/-- Witness for C9: a concrete part header with a non-ASCII identity
byte fails, a concrete kind-41 record with the non-ASCII name byte
0xC8 fails, and in a three-part library whose middle part holds that
record the other two parts are still decoded. -/
theorem c9_witness :
    SchPart.build (some exHdrHighId :: []) "" = .error .unicodeDecodeError
    ∧ SchPart.build (some exHdrB :: ([] ++ some exRecHighName :: [])) "" =
        .error .unicodeDecodeError
    ∧ PyErr.isValueError .unicodeDecodeError = true
    ∧ (SchLib.build exFileC9 4 = .ok ⟨producedEntries exFileC9 exLibHeader3 0 3⟩
        ∧ (producedEntries exFileC9 exLibHeader3 0 3).length = 3 - 1) := by
  refine ⟨c9_unicode_error_drops_part.1 exHdrHighId [] ""
      (by exact Or.inl ⟨[201], rfl, 201, by decide, by decide⟩),
    c9_unicode_error_drops_part.2.1 exHdrB [] [] exRecHighName "" "B" (SchPart.initial "B" "")
      rfl rfl (by exact Or.inl ⟨rfl, [200], rfl, 200, by decide, by decide⟩),
    c9_unicode_error_drops_part.2.2.1,
    c9_unicode_error_drops_part.2.2.2 exFileC9 exLibHeader3 [] 3 1 4 (asciiBytes "B") "B"
      exStreamHighB rfl rfl rfl (by omega) ?good (Or.inl rfl) (by decide) rfl (by decide) rfl
      rfl rfl (by omega)⟩
  intro i hi hij
  match i, hi, hij with
  | 0, _, _ =>
      exact ⟨asciiBytes "A", "A", exStreamA, SchPart.initial "A" "", rfl, by decide, rfl, rfl, rfl⟩
  | 1, _, hij => exact absurd rfl hij
  | 2, _, _ =>
      exact ⟨asciiBytes "C", "C", exStreamC, SchPart.initial "C" "", rfl, by decide, rfl, rfl, rfl⟩
